import Mathlib

/-!
Verification of the community/session/auth backend.

Shallow embedding of the TypeScript sources:
  * `CommunityService` (services/communityService.ts): communities and
    membership rows held in a relational store, here modelled as lists;
    the external database calls that can fail (row inserts / deletes) are
    driven by explicit `DbEnv` flags.
  * the community-creation wizard (commands/createCommunity.ts),
  * the magic-link flow entry point (commands/link.ts),
  * the magic-link rate limiter (services/rateLimiter.ts),
  * the email validator (utils/emailValidator.ts); the third-party
    `validator.isEmail` predicate is kept abstract as a function argument.

Failures that the TypeScript code signals by throwing `Error(msg)` are
modelled as `Except String` results carrying the exact message string.
-/

/-! ### JavaScript string primitives

`trim()`, `toLowerCase()` and the character scans used by the validators,
modelled over `List Char` (ASCII-range behaviour). -/

/-- Whitespace characters removed by `String.prototype.trim` (ASCII range:
tab, line feed, vertical tab, form feed, carriage return, space). -/
def isJsWhitespace (c : Char) : Bool :=
  c.toNat == 9 || c.toNat == 10 || c.toNat == 11 || c.toNat == 12 ||
  c.toNat == 13 || c.toNat == 32

/-- `trim()` on a character list: drop whitespace from both ends. -/
def trimChars (l : List Char) : List Char :=
  ((l.dropWhile isJsWhitespace).reverse.dropWhile isJsWhitespace).reverse

/-- `String.prototype.trim`. -/
def jsTrim (s : String) : String :=
  String.mk (trimChars s.data)

/-- `String.prototype.toLowerCase` (ASCII range). -/
def jsToLower (s : String) : String :=
  String.mk (s.data.map Char.toLower)

/-- Whether two adjacent characters satisfying `p` then `q` occur in the
list (the unanchored regexes `xx` / `[xy]{2,}` reduce to this). -/
def hasAdjPair (p q : Char → Bool) : List Char → Bool
  | [] => false
  | [_] => false
  | a :: b :: rest => (p a && q b) || hasAdjPair p q (b :: rest)

/-- Roles of a community membership row. -/
inductive MemberRole
  | admin
  | moderator
  | member
  deriving DecidableEq, Repr

/-- Statuses of a community membership row. -/
inductive MemberStatus
  | active
  | pending
  | banned
  deriving DecidableEq, Repr

/-- A row of the `communities` table (fields relevant to the verified
operations; counters and timestamps maintained elsewhere are omitted). -/
structure Community where
  id : String
  slug : String
  name : String
  description : Option String
  is_private : Bool
  creator_id : Option String
  deriving DecidableEq, Repr

/-- A row of the `community_members` table. -/
structure CommunityMember where
  community_id : String
  user_id : String
  role : MemberRole
  status : MemberStatus
  deriving DecidableEq, Repr

/-- The relational store backing `CommunityService`. -/
structure Store where
  communities : List Community
  members : List CommunityMember
  deriving DecidableEq, Repr

/-- Environment of the external database: whether each kind of write
succeeds, and the `z.string().uuid()` validator used by the Zod schemas. -/
structure DbEnv where
  communityInsertOk : Bool
  memberInsertOk : Bool
  memberDeleteOk : Bool
  isUuid : String → Bool

/-- Input of `CommunityService.create` (`CreateCommunityData`). -/
structure CreateCommunityData where
  slug : String
  name : String
  description : Option String
  is_private : Option Bool
  deriving DecidableEq, Repr

/-- Character class of the slug regex `[a-z0-9_-]`. -/
def isSlugChar (c : Char) : Bool :=
  (('a' ≤ c && c ≤ 'z') || ('0' ≤ c && c ≤ '9') || c == '_' || c == '-')

/-- The regex `^[a-z0-9_-]+$` of the Zod slug schema. -/
def slugRegexTest (s : String) : Bool :=
  !s.data.isEmpty && s.data.all isSlugChar

/-- `CreateCommunitySchema.parse`: field validation of community creation,
returning the first Zod message on failure. -/
def parseCreateCommunity (d : CreateCommunityData) : Except String Unit :=
  if d.slug.length < 3 then .error "Slug must be at least 3 characters"
  else if 50 < d.slug.length then .error "Slug must be less than 50 characters"
  else if !slugRegexTest d.slug then
    .error "Slug can only contain lowercase letters, numbers, underscores, and hyphens"
  else if d.name.length < 3 then .error "Community name must be at least 3 characters"
  else if 100 < d.name.length then .error "Community name must be less than 100 characters"
  else match d.description with
    | some desc =>
        if 500 < desc.length then .error "Description must be less than 500 characters"
        else .ok ()
    | none => .ok ()

/-- Scan to the character after the first `>` of a list, if any
(helper for the HTML-stripping regex). -/
def afterGt : List Char → Option (List Char)
  | [] => none
  | c :: rest => if c = '>' then some rest else afterGt rest

theorem afterGt_length_lt : ∀ (l t : List Char), afterGt l = some t → t.length < l.length := by
  intro l
  induction l with
  | nil => intro t h; simp [afterGt] at h
  | cons c rest ih =>
      intro t h
      unfold afterGt at h
      by_cases hc : c = '>'
      · rw [if_pos hc] at h
        injection h with h2
        subst h2
        simp only [List.length_cons]
        omega
      · rw [if_neg hc] at h
        have := ih t h
        simp only [List.length_cons]
        omega

/-- The replacement `description.replace(/<[^>]*>/g, '')`: every maximal
`<...>` group (a `<`, non-`>` characters, then `>`) is removed; a `<`
with no later `>` is kept. -/
def stripHtml (l : List Char) : List Char :=
  match l with
  | [] => []
  | c :: rest =>
      if c = '<' then
        match h : afterGt rest with
        | some t => stripHtml t
        | none => c :: stripHtml rest
      else c :: stripHtml rest
termination_by l.length
decreasing_by
  all_goals simp only [List.length_cons]
  · have := afterGt_length_lt rest t h
    omega
  · omega
  · omega

namespace CommunityService

/-- `communities ... eq('slug', slug) ... single()`: row lookup by slug. -/
def findBySlug (store : Store) (slug : String) : Option Community :=
  store.communities.find? (fun c => c.slug == slug)

/-- `CommunityService.getByIdInternal`: community lookup by id, without
privacy checks. -/
def getByIdInternal (store : Store) (id : String) : Option Community :=
  store.communities.find? (fun c => c.id == id)

/-- `CommunityService.getMember`: the membership row of a
`(community, user)` pair, of any status. -/
def getMember (store : Store) (communityId userId : String) : Option CommunityMember :=
  store.members.find? (fun m => m.community_id == communityId && m.user_id == userId)

/-- `CommunityService.isMember`: true only when a membership row with
status `active` exists for the pair. -/
def isMember (store : Store) (communityId userId : String) : Bool :=
  (store.members.find?
    (fun m => m.community_id == communityId && m.user_id == userId
      && m.status == MemberStatus.active)).isSome

/-- `CommunityService.getUserRole`: the role of the membership row when
its status is `active`, otherwise `null`. -/
def getUserRole (store : Store) (communityId userId : String) : Option MemberRole :=
  match getMember store communityId userId with
  | some m => if m.status = MemberStatus.active then some m.role else none
  | none => none

/-- `CommunityService.getBySlug`: community lookup by slug; a private
community is hidden (`null`) from an anonymous requester and from a
requester who is not an active member. -/
def getBySlug (store : Store) (slug : String) (userId : Option String) : Option Community :=
  match findBySlug store slug with
  | none => none
  | some community =>
      if community.is_private then
        match userId with
        | none => none
        | some u => if isMember store community.id u then some community else none
      else some community

/-- `CommunityService.addMember`: insert of one membership row; throws
`Failed to add member` when the insert errors. -/
def addMember (env : DbEnv) (store : Store) (communityId userId : String)
    (role : MemberRole) (status : MemberStatus) : Except String Unit × Store :=
  if env.memberInsertOk then
    (.ok (), { store with members := store.members ++
      [{ community_id := communityId, user_id := userId, role := role, status := status }] })
  else (.error "Failed to add member", store)

/-- `CommunityService.create`: validate, sanitize the description, check
slug uniqueness, insert the community row, then insert the creator
membership row (admin, active). The two inserts are separate store
writes with no surrounding transaction. -/
def create (env : DbEnv) (store : Store) (newId userId : String)
    (data : CreateCommunityData) : Except String Community × Store :=
  match parseCreateCommunity data with
  | .error e => (.error e, store)
  | .ok () =>
      let sanitizedDescription :=
        data.description.map (fun s => jsTrim (String.mk (stripHtml s.data)))
      match findBySlug store data.slug with
      | some _ => (.error "Community slug is already taken", store)
      | none =>
          if env.communityInsertOk then
            let community : Community :=
              { id := newId, slug := data.slug, name := data.name,
                description := sanitizedDescription,
                is_private := data.is_private.getD false,
                creator_id := some userId }
            let store1 := { store with communities := store.communities ++ [community] }
            match addMember env store1 community.id userId .admin .active with
            | (.ok (), store2) => (.ok community, store2)
            | (.error e, store2) => (.error e, store2)
          else (.error "Failed to create community", store)

/-- Result values of `CommunityService.join`. -/
inductive JoinResult
  | joined
  | pending
  deriving DecidableEq, Repr

/-- `CommunityService.join`: Zod uuid validation, community lookup without
privacy checks, duplicate-membership rejection with a status-specific
message, then insert of one `member` row whose status depends on the
community privacy. -/
def join (env : DbEnv) (store : Store) (communityId userId : String) :
    Except String JoinResult × Store :=
  if !(env.isUuid communityId && env.isUuid userId) then
    (.error "Invalid community or user id", store)
  else
    match getByIdInternal store communityId with
    | none => (.error "Community not found", store)
    | some community =>
        match getMember store communityId userId with
        | some existingMember =>
            match existingMember.status with
            | .active => (.error "Already a member of this community", store)
            | .pending => (.error "Join request is already pending", store)
            | .banned => (.error "You have been banned from this community", store)
        | none =>
            let status : MemberStatus :=
              if community.is_private then .pending else .active
            match addMember env store communityId userId .member status with
            | (.ok (), store1) =>
                ((.ok (if status = MemberStatus.active then .joined else .pending)), store1)
            | (.error e, store1) => (.error e, store1)

/-- The three duplicate-membership rejection messages of
`CommunityService.join`, by existing status. -/
def alreadyMemberMessage : MemberStatus → String
  | .active => "Already a member of this community"
  | .pending => "Join request is already pending"
  | .banned => "You have been banned from this community"

/-- `CommunityService.leave`: reject a non-member, reject the community
creator, otherwise delete the membership row. -/
def leave (env : DbEnv) (store : Store) (communityId userId : String) :
    Except String Unit × Store :=
  match getMember store communityId userId with
  | none => (.error "Not a member of this community", store)
  | some _ =>
      let community := getByIdInternal store communityId
      if (match community with
          | some c => c.creator_id == some userId
          | none => false) then
        (.error "Community creator cannot leave. Transfer ownership first.", store)
      else if env.memberDeleteOk then
        let remaining := store.members.filter
          (fun m => !(m.community_id == communityId && m.user_id == userId))
        (.ok (), { store with members := remaining })
      else (.error "Failed to leave community", store)

end CommunityService

/-! ### Session state and the flow entry points

`SessionData` (types/index.ts) restricted to the fields the auth flow and
the community-creation wizard read or write. -/

/-- The wizard accumulator `communityCreation.data`. -/
structure WizardData where
  slug : Option String
  name : Option String
  description : Option String
  is_private : Option Bool
  deriving DecidableEq, Repr

/-- The wizard state `session.communityCreation` (`CommunityCreationFlow`). -/
structure CommunityCreationFlow where
  step : Nat
  data : WizardData
  deriving DecidableEq, Repr

/-- Per-user session record (`SessionData`), with `user` reduced to the
cached user id. -/
structure Session where
  step : Option String
  data : List (String × String)
  user : Option String
  linkingEmail : Option String
  linkingExpiry : Option Nat
  communityCreation : Option CommunityCreationFlow
  deriving DecidableEq, Repr

/-- `createCommunityCommand` (commands/createCommunity.ts): reply-only when
the user is not authenticated, otherwise initialize the wizard at step 1
with empty data. No other session field is written. -/
def createCommunityCommand (sess : Session) : Session :=
  match sess.user with
  | none => sess
  | some _ =>
      { sess with
        communityCreation := some { step := 1, data := ⟨none, none, none, none⟩ } }

/-- `startLinkingProcess` (commands/link.ts): set the auth-flow step to
`awaiting_email` and record the start timestamp. No other session field
is written. -/
def startLinkingProcess (now : String) (sess : Session) : Session :=
  { sess with step := some "awaiting_email", data := [("linkingStarted", now)] }

/-- `handleStep1` (commands/createCommunity.ts): validate the slug format,
then check availability with `CommunityService.getBySlug(text)` — called
without a requesting user — and on success store the slug and advance to
step 2; every other outcome re-prompts and leaves the session unchanged. -/
def handleStep1 (store : Store) (sess : Session) (flow : CommunityCreationFlow)
    (text : String) : Session :=
  if text.length < 3 || 50 < text.length then sess
  else if !slugRegexTest text then sess
  else
    match CommunityService.getBySlug store text none with
    | some _ => sess
    | none =>
        { sess with
          communityCreation := some { step := 2, data := { flow.data with slug := some text } } }

/-- `handleStep5` (commands/createCommunity.ts): on `cancel` drop the
wizard state; on `back` return to step 4; on `create` call
`CommunityService.create` and delete the wizard state whether the call
succeeds or fails; any other text re-prompts. -/
def handleStep5 (env : DbEnv) (store : Store) (newId : String)
    (sess : Session) (flow : CommunityCreationFlow) (text : String) :
    Session × Store :=
  let choice := jsToLower text
  if choice == "cancel" then ({ sess with communityCreation := none }, store)
  else if choice == "back" then
    ({ sess with communityCreation := some ({ flow with step := 4 }) }, store)
  else if choice == "create" then
    match CommunityService.create env store newId (sess.user.getD "")
        { slug := flow.data.slug.getD "", name := flow.data.name.getD "",
          description := flow.data.description,
          is_private := flow.data.is_private } with
    | (.ok _, store1) => ({ sess with communityCreation := none }, store1)
    | (.error _, store1) => ({ sess with communityCreation := none }, store1)
  else (sess, store)

/-! ### Magic-link rate limiter (services/rateLimiter.ts)

`canSendMagicLink` reads the counter for the `(userId, email)` key; the
read against the external backend either throws (backend unreachable,
modelled as `Except.error`), returns no record (`null`), or returns the
current counter record. -/

/-- Counter record returned by `magicLinkRateLimiter.get`. -/
structure RateLimiterRes where
  remainingPoints : Int
  msBeforeNext : Nat
  deriving DecidableEq, Repr

/-- Result record of `canSendMagicLink`. -/
structure MagicLinkCheck where
  allowed : Bool
  remainingPoints : Int
  msBeforeNext : Nat
  message : Option String
  deriving DecidableEq, Repr

/-- `Math.ceil (a / b)` on non-negative numbers. -/
def ceilDiv (a b : Nat) : Nat := (a + b - 1) / b

/-- The rate-limit-exceeded reply text of `canSendMagicLink`. -/
def magicLinkLimitMessage (hoursLeft minutesLeft : Nat) : String :=
  if 1 < hoursLeft then
    s!"🚫 Magic link limit exceeded! You can request up to 3 magic links per hour.\n\nTry again in {hoursLeft} hours."
  else
    s!"🚫 Magic link limit exceeded! You can request up to 3 magic links per hour.\n\nTry again in {minutesLeft} minutes."

/-- `canSendMagicLink` (services/rateLimiter.ts): gate on the magic-link
counter; a throwing counter read is caught and mapped to a denial with a
generic try-later message. -/
def canSendMagicLink (userId : Nat) (email : String)
    (readResult : Except Unit (Option RateLimiterRes)) : MagicLinkCheck :=
  match readResult with
  | .error _ =>
      { allowed := false, remainingPoints := 0, msBeforeNext := 0,
        message := some "Unable to check request limits. Please try again later." }
  | .ok none =>
      { allowed := true, remainingPoints := 3, msBeforeNext := 0, message := none }
  | .ok (some res) =>
      if res.remainingPoints ≤ 0 then
        let minutesLeft := ceilDiv res.msBeforeNext 60000
        let hoursLeft := ceilDiv minutesLeft 60
        { allowed := false, remainingPoints := 0, msBeforeNext := res.msBeforeNext,
          message := some (magicLinkLimitMessage hoursLeft minutesLeft) }
      else
        { allowed := true, remainingPoints := res.remainingPoints,
          msBeforeNext := res.msBeforeNext, message := none }

/-! ### Email validator (utils/emailValidator.ts)

`validateEmail` normalizes the input with `trim().toLowerCase()` and
applies the syntactic checks; the third-party `validator.isEmail` is an
abstract boolean predicate parameter. -/

/-- Validation result record (`EmailValidation`). -/
structure EmailValidation where
  isValid : Bool
  normalizedEmail : Option String
  error : Option String
  deriving DecidableEq, Repr

/-- The normalization `email.trim().toLowerCase()`. -/
def normalizeEmail (email : String) : String :=
  jsToLower (jsTrim email)

/-- Character test for `.` . -/
def isDotChar (c : Char) : Bool := c == '.'

/-- Character test for `@`. -/
def isAtChar (c : Char) : Bool := c == '@'

/-- Character test for the class `[.@]`. -/
def isDotAtChar (c : Char) : Bool := c == '.' || c == '@'

/-- Number of `@` characters of a string. -/
def atCount (s : String) : Nat := s.data.count '@'

/-- `validateEmail`: reject empty input, input longer than 320 characters,
input failing `validator.isEmail`, consecutive dots, and the suspicious
patterns `^[.]`, `[.]$`, `[@]{2,}`, `[.@]{2,}`; otherwise return the
normalized email. -/
def validateEmail (isEmail : String → Bool) (email : String) : EmailValidation :=
  let trimmedEmail := normalizeEmail email
  if trimmedEmail.data = [] then
    { isValid := false, normalizedEmail := none,
      error := some "Email address is required" }
  else if 320 < trimmedEmail.length then
    { isValid := false, normalizedEmail := none,
      error := some "Email address is too long (max 320 characters)" }
  else if !isEmail trimmedEmail then
    { isValid := false, normalizedEmail := none,
      error := some "Please enter a valid email address" }
  else if hasAdjPair isDotChar isDotChar trimmedEmail.data then
    { isValid := false, normalizedEmail := none,
      error := some "Email address cannot contain consecutive dots" }
  else if trimmedEmail.data.head? = some '.' then
    { isValid := false, normalizedEmail := none,
      error := some "Email address format is invalid" }
  else if trimmedEmail.data.getLast? = some '.' then
    { isValid := false, normalizedEmail := none,
      error := some "Email address format is invalid" }
  else if hasAdjPair isAtChar isAtChar trimmedEmail.data then
    { isValid := false, normalizedEmail := none,
      error := some "Email address format is invalid" }
  else if hasAdjPair isDotAtChar isDotAtChar trimmedEmail.data then
    { isValid := false, normalizedEmail := none,
      error := some "Email address format is invalid" }
  else
    { isValid := true, normalizedEmail := some trimmedEmail, error := none }

/-- The flat conjunction of the syntactic checks of `validateEmail`: the
normalized email is non-empty, within the length limit, accepted by
`validator.isEmail`, and free of the rejected dot/at patterns. -/
def emailSyntaxValid (isEmail : String → Bool) (email : String) : Prop :=
  (normalizeEmail email).data ≠ [] ∧
  (normalizeEmail email).length ≤ 320 ∧
  isEmail (normalizeEmail email) = true ∧
  hasAdjPair isDotChar isDotChar (normalizeEmail email).data = false ∧
  (normalizeEmail email).data.head? ≠ some '.' ∧
  (normalizeEmail email).data.getLast? ≠ some '.' ∧
  hasAdjPair isAtChar isAtChar (normalizeEmail email).data = false ∧
  hasAdjPair isDotAtChar isDotAtChar (normalizeEmail email).data = false

/-! ### Helper lemmas: characters, trimming, normalization -/

theorem toNat_ofNat_of_lt (n : Nat) (h : n < 55296) : (Char.ofNat n).toNat = n := by
  have hv : n.isValidChar := Or.inl h
  simp [Char.ofNat, hv, Char.ofNatAux, Char.toNat, UInt32.toNat, UInt32.ofNatCore]

theorem isJsWhitespace_eq_false_of_ge (c : Char) (h : 33 ≤ c.toNat) :
    isJsWhitespace c = false := by
  unfold isJsWhitespace
  simp only [Bool.or_eq_false_iff, beq_eq_false_iff_ne]
  omega

theorem toLower_toNat_of_upper (c : Char) (h : 65 ≤ c.toNat ∧ c.toNat ≤ 90) :
    (Char.toLower c).toNat = c.toNat + 32 := by
  have h65 : c.toNat ≥ 65 := h.1
  have h90 : c.toNat ≤ 90 := h.2
  simp only [Char.toLower, ge_iff_le, h65, h90, and_self, if_true]
  exact toNat_ofNat_of_lt _ (by omega)

theorem toLower_eq_self (c : Char) (h : ¬(65 ≤ c.toNat ∧ c.toNat ≤ 90)) :
    Char.toLower c = c := by
  simp only [Char.toLower, ge_iff_le]
  rw [if_neg h]

theorem isJsWhitespace_toLower (c : Char) :
    isJsWhitespace (Char.toLower c) = isJsWhitespace c := by
  by_cases h : 65 ≤ c.toNat ∧ c.toNat ≤ 90
  · rw [isJsWhitespace_eq_false_of_ge c (by omega),
      isJsWhitespace_eq_false_of_ge (Char.toLower c)
        (by rw [toLower_toNat_of_upper c h]; omega)]
  · rw [toLower_eq_self c h]

theorem toLower_idem (c : Char) : Char.toLower (Char.toLower c) = Char.toLower c := by
  by_cases h : 65 ≤ c.toNat ∧ c.toNat ≤ 90
  · have h32 := toLower_toNat_of_upper c h
    exact toLower_eq_self (Char.toLower c) (by omega)
  · rw [toLower_eq_self c h]
    exact toLower_eq_self c h

theorem dropWhile_dropWhile (p : Char → Bool) (l : List Char) :
    (l.dropWhile p).dropWhile p = l.dropWhile p := by
  induction l with
  | nil => rfl
  | cons a l ih =>
      by_cases h : p a
      · simp [List.dropWhile_cons, h, ih]
      · simp [List.dropWhile_cons, h]

theorem dropWhile_prefix_eq_self (p : Char → Bool) (m k : List Char)
    (hm : m.dropWhile p = m) (hk : k <+: m) : k.dropWhile p = k := by
  cases k with
  | nil => rfl
  | cons a t =>
      cases m with
      | nil => simp at hk
      | cons b s =>
          have hab : a = b := (List.cons_prefix_cons.mp hk).1
          have hpb : p b = false := by
            by_contra hp
            have hp' : p b = true := by
              cases hb : p b
              · exact absurd hb hp
              · rfl
            rw [List.dropWhile_cons, if_pos hp'] at hm
            have hle := (List.dropWhile_sublist (l := s) p).length_le
            rw [hm] at hle
            simp at hle
          subst hab
          rw [List.dropWhile_cons, hpb]
          simp

theorem trimChars_idem (l : List Char) : trimChars (trimChars l) = trimChars l := by
  unfold trimChars
  set p := isJsWhitespace
  set A := l.dropWhile p with hA
  set B := (A.reverse.dropWhile p).reverse with hB
  have hAfix : A.dropWhile p = A := dropWhile_dropWhile p l
  have hBpre : B <+: A := by
    rw [hB]
    have hs : A.reverse.dropWhile p <:+ A.reverse := List.dropWhile_suffix p
    have := List.reverse_prefix.mpr hs
    simpa using this
  have hBfix : B.dropWhile p = B := dropWhile_prefix_eq_self p A B hAfix hBpre
  rw [hBfix]
  have hBrev : B.reverse.dropWhile p = B.reverse := by
    rw [hB, List.reverse_reverse]
    exact dropWhile_dropWhile p A.reverse
  rw [hBrev, List.reverse_reverse]

theorem trimChars_map_toLower (l : List Char) :
    trimChars (l.map Char.toLower) = (trimChars l).map Char.toLower := by
  unfold trimChars
  have hcomp : (isJsWhitespace ∘ Char.toLower) = isJsWhitespace :=
    funext isJsWhitespace_toLower
  rw [List.dropWhile_map, hcomp, ← List.map_reverse, List.dropWhile_map, hcomp,
    ← List.map_reverse]

/-- The character list of a normalized email. -/
def normChars (l : List Char) : List Char :=
  (trimChars l).map Char.toLower

theorem normalizeEmail_eq (email : String) :
    normalizeEmail email = String.mk (normChars email.data) := rfl

theorem normChars_idem (l : List Char) : normChars (normChars l) = normChars l := by
  unfold normChars
  rw [trimChars_map_toLower, trimChars_idem, List.map_map]
  have hcomp : (Char.toLower ∘ Char.toLower) = Char.toLower := funext toLower_idem
  rw [hcomp]

theorem normalizeEmail_idem (email : String) :
    normalizeEmail (normalizeEmail email) = normalizeEmail email := by
  rw [normalizeEmail_eq email, normalizeEmail_eq (String.mk (normChars email.data))]
  exact congrArg String.mk (normChars_idem email.data)

theorem validateEmail_of_valid (isEmail : String → Bool) (email : String)
    (h : emailSyntaxValid isEmail email) :
    validateEmail isEmail email =
      { isValid := true, normalizedEmail := some (normalizeEmail email),
        error := none } := by
  obtain ⟨h1, h2, h3, h4, h5, h6, h7, h8⟩ := h
  have h2' : ¬ 320 < (normalizeEmail email).length := by omega
  simp only [validateEmail]
  rw [if_neg h1, if_neg h2']
  rw [if_neg (by simp [h3]), if_neg (by simp [h4]), if_neg h5, if_neg h6,
    if_neg (by simp [h7]), if_neg (by simp [h8])]

theorem validateEmail_of_not_valid (isEmail : String → Bool) (email : String)
    (h : ¬ emailSyntaxValid isEmail email) :
    (validateEmail isEmail email).isValid = false ∧
    (validateEmail isEmail email).normalizedEmail = none := by
  by_cases h1 : (normalizeEmail email).data = []
  · constructor <;> simp [validateEmail, h1]
  · by_cases h2 : 320 < (normalizeEmail email).length
    · constructor <;> simp [validateEmail, h1, h2]
    · by_cases h3 : isEmail (normalizeEmail email) = true
      · by_cases h4 : hasAdjPair isDotChar isDotChar (normalizeEmail email).data = true
        · constructor <;> simp [validateEmail, h1, h2, h3, h4]
        · by_cases h5 : (normalizeEmail email).data.head? = some '.'
          · constructor <;> simp [validateEmail, h1, h2, h3, h4, h5]
          · by_cases h6 : (normalizeEmail email).data.getLast? = some '.'
            · constructor <;> simp [validateEmail, h1, h2, h3, h4, h5, h6]
            · by_cases h7 : hasAdjPair isAtChar isAtChar (normalizeEmail email).data = true
              · constructor <;> simp [validateEmail, h1, h2, h3, h4, h5, h6, h7]
              · by_cases h8 : hasAdjPair isDotAtChar isDotAtChar (normalizeEmail email).data = true
                · constructor <;> simp [validateEmail, h1, h2, h3, h4, h5, h6, h7, h8]
                · simp only [Bool.not_eq_true] at h4 h7 h8
                  exact absurd ⟨h1, by omega, h3, h4, h5, h6, h7, h8⟩ h
      · constructor <;> simp [validateEmail, h1, h2, h3]

/-! ### Concrete instances used by counterexamples and witnesses -/

/-- Database environment in which every external write succeeds. -/
def envAllOk : DbEnv :=
  { communityInsertOk := true, memberInsertOk := true, memberDeleteOk := true,
    isUuid := fun _ => true }

/-- Database environment in which the membership insert fails. -/
def envMemberInsertFails : DbEnv :=
  { communityInsertOk := true, memberInsertOk := false, memberDeleteOk := true,
    isUuid := fun _ => true }

/-- An empty store. -/
def storeEmpty : Store := { communities := [], members := [] }

/-- A private community created by `alice`. -/
def secretClub : Community :=
  { id := "c-1", slug := "secret-club", name := "Secret Club",
    description := none, is_private := true, creator_id := some "alice" }

/-- A store holding `secretClub` with its creator as active admin member. -/
def secretClubStore : Store :=
  { communities := [secretClub],
    members := [{ community_id := "c-1", user_id := "alice",
                  role := MemberRole.admin, status := MemberStatus.active }] }

/-- A session of an authenticated user with no active flow. -/
def sessionBase : Session :=
  { step := none, data := [], user := some "alice", linkingEmail := none,
    linkingExpiry := none, communityCreation := none }

/-- A wizard flow at step 1 with empty data. -/
def flowStep1 : CommunityCreationFlow :=
  { step := 1, data := ⟨none, none, none, none⟩ }

/-- A simple concrete stand-in for `validator.isEmail`: accept exactly the
strings containing a single `@`. -/
def oracleOneAt : String → Bool := fun s => atCount s == 1

/-! ### Claims -/

/-- C1: the claim states that `create` never leaves a community row without
the creator membership row, even when the membership insert fails. The
code violates this: evaluated at an input where the community insert
succeeds and the membership insert fails, `create` raises the
member-insert error yet the resulting store holds the community row with
zero membership rows. -/
theorem create_partial_on_member_insert_failure :
    (CommunityService.create envMemberInsertFails storeEmpty "c-1" "u-1"
        { slug := "crypto-trading", name := "Crypto Trading Hub",
          description := none, is_private := some false }).1
      = Except.error "Failed to add member"
    ∧ (CommunityService.create envMemberInsertFails storeEmpty "c-1" "u-1"
        { slug := "crypto-trading", name := "Crypto Trading Hub",
          description := none, is_private := some false }).2
      = { communities := [⟨"c-1", "crypto-trading", "Crypto Trading Hub",
                           none, false, some "u-1"⟩],
          members := [] } := by
  constructor <;> rfl

/-- C2 counterexample: a community with slug `secret-club` exists (it is
private), yet step 1 of the wizard accepts that slug and advances to
step 2 instead of re-prompting, because the availability check calls
`getBySlug` without a requesting user and private communities are hidden
from anonymous lookups. -/
theorem step1_accepts_taken_private_slug :
    handleStep1 secretClubStore sessionBase flowStep1 "secret-club"
      = { sessionBase with
          communityCreation := some ⟨2, ⟨some "secret-club", none, none, none⟩⟩ } := by
  rfl

/-- C2 (amended): for a format-valid slug, step 1 accepts (stores the slug
and advances to step 2) iff every community carrying that slug is
private — equivalently, iff no public community has the slug; when a
public community has the slug, the wizard re-prompts at step 1 with the
session unchanged. -/
theorem step1_accepts_iff_no_public_slug
    (store : Store) (sess : Session) (flow : CommunityCreationFlow) (text : String)
    (hlen : 3 ≤ text.length ∧ text.length ≤ 50)
    (hre : slugRegexTest text = true)
    (hflow : flow.step = 1)
    (hsess : sess.communityCreation = some flow)
    (huniq : ∀ c1 ∈ store.communities, ∀ c2 ∈ store.communities,
      c1.slug = c2.slug → c1 = c2) :
    (((handleStep1 store sess flow text).communityCreation =
        some { step := 2, data := { flow.data with slug := some text } })
      ↔ (∀ c ∈ store.communities, c.slug = text → c.is_private = true))
    ∧ ((∃ c ∈ store.communities, c.slug = text ∧ c.is_private = false) →
        handleStep1 store sess flow text = sess) := by
  have hlen1 : ¬(text.length < 3 || 50 < text.length) = true := by
    simp only [Bool.or_eq_true, decide_eq_true_eq]
    omega
  have hre1 : ¬(!slugRegexTest text) = true := by simp [hre]
  constructor
  · constructor
    · intro hacc
      intro c hcmem hcslug
      by_contra hpriv
      have hpub : c.is_private = false := by
        cases hb : c.is_private
        · rfl
        · exact absurd hb hpriv
      -- with a public community carrying the slug, getBySlug finds it
      have hfound : ∃ c0, CommunityService.findBySlug store text = some c0 := by
        cases hf : CommunityService.findBySlug store text with
        | none =>
            have := List.find?_eq_none.mp hf c hcmem
            simp [hcslug] at this
        | some c0 => exact ⟨c0, rfl⟩
      obtain ⟨c0, hc0⟩ := hfound
      have hc0mem : c0 ∈ store.communities :=
        List.mem_of_find?_eq_some hc0
      have hc0slug : c0.slug = text := by
        have := List.find?_some hc0
        simpa using this
      have hc0eq : c0 = c := huniq c0 hc0mem c hcmem (hc0slug.trans hcslug.symm)
      subst hc0eq
      -- the public community is returned, so step 1 re-prompts
      have hsame : handleStep1 store sess flow text = sess := by
        simp [handleStep1, hlen1, hre1, CommunityService.getBySlug, hc0, hpub]
      rw [hsame, hsess] at hacc
      have : flow.step = 2 := by
        have := Option.some.inj hacc
        rw [this]
      omega
    · intro hallpriv
      cases hf : CommunityService.findBySlug store text with
      | none => simp [handleStep1, hlen1, hre1, CommunityService.getBySlug, hf]
      | some c0 =>
          have hc0mem : c0 ∈ store.communities := List.mem_of_find?_eq_some hf
          have hc0slug : c0.slug = text := by
            have := List.find?_some hf
            simpa using this
          have hpriv := hallpriv c0 hc0mem hc0slug
          simp [handleStep1, hlen1, hre1, CommunityService.getBySlug, hf, hpriv]
  · intro ⟨c, hcmem, hcslug, hpub⟩
    have hfound : ∃ c0, CommunityService.findBySlug store text = some c0 := by
      cases hf : CommunityService.findBySlug store text with
      | none =>
          have := List.find?_eq_none.mp hf c hcmem
          simp [hcslug] at this
      | some c0 => exact ⟨c0, rfl⟩
    obtain ⟨c0, hc0⟩ := hfound
    have hc0mem : c0 ∈ store.communities := List.mem_of_find?_eq_some hc0
    have hc0slug : c0.slug = text := by
      have := List.find?_some hc0
      simpa using this
    have hc0eq : c0 = c := huniq c0 hc0mem c hcmem (hc0slug.trans hcslug.symm)
    subst hc0eq
    simp [handleStep1, hlen1, hre1, CommunityService.getBySlug, hc0, hpub]

/-- A store holding one public community with a taken slug. -/
def publicStore : Store :=
  { communities := [⟨"c-2", "taken-slug", "Taken Community", none, false, some "alice"⟩],
    members := [] }

/-- A session holding a step-1 wizard flow. -/
def sessionWithFlow : Session :=
  { sessionBase with communityCreation := some flowStep1 }

/-- C2 witness: the amended statement applied at a concrete store with one
public community and a fresh, format-valid slug. -/
theorem step1_accepts_iff_no_public_slug_witness :
    (((handleStep1 publicStore sessionWithFlow flowStep1 "fresh-slug").communityCreation =
        some { step := 2, data := { flowStep1.data with slug := some "fresh-slug" } })
      ↔ (∀ c ∈ publicStore.communities, c.slug = "fresh-slug" → c.is_private = true))
    ∧ ((∃ c ∈ publicStore.communities, c.slug = "fresh-slug" ∧ c.is_private = false) →
        handleStep1 publicStore sessionWithFlow flowStep1 "fresh-slug" = sessionWithFlow) :=
  step1_accepts_iff_no_public_slug publicStore sessionWithFlow flowStep1 "fresh-slug"
    (by decide) (by decide) rfl rfl (by decide)

/-- C3 counterexample: starting the auth flow and then the wizard leaves a
session in which the auth-flow step field and the wizard state are both
set — the claimed mutual clearing does not happen. -/
theorem both_flows_set_after_link_then_wizard :
    ((createCommunityCommand
        (startLinkingProcess "2025-01-01T00:00:00.000Z" sessionBase)).step
      = some "awaiting_email")
    ∧ ((createCommunityCommand
        (startLinkingProcess "2025-01-01T00:00:00.000Z" sessionBase)).communityCreation
      = some ⟨1, ⟨none, none, none, none⟩⟩) :=
  ⟨rfl, rfl⟩

/-- C3 (amended): starting one flow leaves the other flow field untouched —
`createCommunityCommand` never writes the auth-flow step field and
`startLinkingProcess` never writes the wizard state, so a session can
hold both at once. -/
theorem starting_flows_preserves_other_field (sess : Session) (now : String) :
    (createCommunityCommand sess).step = sess.step
    ∧ (startLinkingProcess now sess).communityCreation = sess.communityCreation := by
  constructor
  · cases hu : sess.user
    · simp [createCommunityCommand, hu]
    · simp [createCommunityCommand, hu]
  · rfl

/-- C4: for a private community, `getBySlug` returns not-found for an
anonymous requester and for a requester who is not an active member, and
returns the community for any active member — in particular for the
creator, who by the membership invariant holds an active row. -/
theorem getBySlug_private_visibility
    (store : Store) (slug : String) (c : Community) (u : String)
    (hc : CommunityService.findBySlug store slug = some c)
    (hp : c.is_private = true) :
    CommunityService.getBySlug store slug none = none
    ∧ (CommunityService.isMember store c.id u = false →
        CommunityService.getBySlug store slug (some u) = none)
    ∧ (CommunityService.isMember store c.id u = true →
        CommunityService.getBySlug store slug (some u) = some c)
    ∧ (∀ creator, c.creator_id = some creator →
        CommunityService.isMember store c.id creator = true →
        CommunityService.getBySlug store slug (some creator) = some c) := by
  refine ⟨?_, ?_, ?_, ?_⟩
  · simp [CommunityService.getBySlug, hc, hp]
  · intro hm
    simp [CommunityService.getBySlug, hc, hp, hm]
  · intro hm
    simp [CommunityService.getBySlug, hc, hp, hm]
  · intro creator _ hm
    simp [CommunityService.getBySlug, hc, hp, hm]

/-- C4 witness: the private `secret-club` is hidden from anonymous and
non-member requesters and visible to its creator. -/
theorem getBySlug_private_visibility_witness :
    CommunityService.getBySlug secretClubStore "secret-club" none = none
    ∧ (CommunityService.isMember secretClubStore secretClub.id "bob" = false →
        CommunityService.getBySlug secretClubStore "secret-club" (some "bob") = none)
    ∧ (CommunityService.isMember secretClubStore secretClub.id "bob" = true →
        CommunityService.getBySlug secretClubStore "secret-club" (some "bob")
          = some secretClub)
    ∧ (∀ creator, secretClub.creator_id = some creator →
        CommunityService.isMember secretClubStore secretClub.id creator = true →
        CommunityService.getBySlug secretClubStore "secret-club" (some creator)
          = some secretClub) :=
  getBySlug_private_visibility secretClubStore "secret-club" secretClub "bob" rfl rfl

/-- C5: for any database environment and store, when the requesting user
holds a membership row and is the creator of the (existing) community,
`leave` fails with the creator-cannot-leave error and returns the store
unchanged: no membership row is deleted. -/
theorem leave_creator_rejected
    (env : DbEnv) (store : Store) (communityId userId : String)
    (comm : Community) (m : CommunityMember)
    (hm : CommunityService.getMember store communityId userId = some m)
    (hcomm : CommunityService.getByIdInternal store communityId = some comm)
    (hcr : comm.creator_id = some userId) :
    CommunityService.leave env store communityId userId =
      (Except.error "Community creator cannot leave. Transfer ownership first.",
       store) := by
  simp [CommunityService.leave, hm, hcomm, hcr]

/-- C5 witness: the creator `alice` of `secret-club` cannot leave it, and
the store is unchanged. -/
theorem leave_creator_rejected_witness :
    CommunityService.leave envAllOk secretClubStore "c-1" "alice" =
      (Except.error "Community creator cannot leave. Transfer ownership first.",
       secretClubStore) :=
  leave_creator_rejected envAllOk secretClubStore "c-1" "alice" secretClub
    ⟨"c-1", "alice", MemberRole.admin, MemberStatus.active⟩ rfl rfl rfl

/-- C6: for an existing community and a working insert, `join` fails with
the status-specific already-member message and leaves the store unchanged
when any membership row exists for the pair; otherwise it inserts exactly
one `member` row — active with result `joined` for a public community,
pending with result `pending` for a private one. -/
theorem join_duplicate_rejected_or_single_insert
    (env : DbEnv) (store : Store) (communityId userId : String) (c : Community)
    (hu1 : env.isUuid communityId = true) (hu2 : env.isUuid userId = true)
    (hins : env.memberInsertOk = true)
    (hc : CommunityService.getByIdInternal store communityId = some c) :
    (∀ m, CommunityService.getMember store communityId userId = some m →
        CommunityService.join env store communityId userId =
          (Except.error (CommunityService.alreadyMemberMessage m.status), store))
    ∧ (CommunityService.getMember store communityId userId = none →
        CommunityService.join env store communityId userId =
          (Except.ok (if c.is_private then CommunityService.JoinResult.pending
              else CommunityService.JoinResult.joined),
           { store with members := store.members ++
              [⟨communityId, userId, MemberRole.member,
                if c.is_private then MemberStatus.pending
                else MemberStatus.active⟩] })) := by
  constructor
  · intro m hm
    cases hstat : m.status <;>
      simp [CommunityService.join, CommunityService.alreadyMemberMessage,
        hu1, hu2, hc, hm, hstat]
  · intro hm
    by_cases hp : c.is_private = true
    · simp [CommunityService.join, CommunityService.addMember,
        hu1, hu2, hc, hm, hins, hp]
    · simp [CommunityService.join, CommunityService.addMember,
        hu1, hu2, hc, hm, hins, hp]

/-- C6 witness: joining the private `secret-club` as `bob` (no existing
row) inserts exactly one pending member row, and a second attempt by the
creator `alice` (active row) is rejected with the active-status message. -/
theorem join_duplicate_rejected_or_single_insert_witness :
    (∀ m, CommunityService.getMember secretClubStore "c-1" "bob" = some m →
        CommunityService.join envAllOk secretClubStore "c-1" "bob" =
          (Except.error (CommunityService.alreadyMemberMessage m.status),
           secretClubStore))
    ∧ (CommunityService.getMember secretClubStore "c-1" "bob" = none →
        CommunityService.join envAllOk secretClubStore "c-1" "bob" =
          (Except.ok (if secretClub.is_private then CommunityService.JoinResult.pending
              else CommunityService.JoinResult.joined),
           { secretClubStore with members := secretClubStore.members ++
              [⟨"c-1", "bob", MemberRole.member,
                if secretClub.is_private then MemberStatus.pending
                else MemberStatus.active⟩] })) :=
  join_duplicate_rejected_or_single_insert envAllOk secretClubStore "c-1" "bob"
    secretClub rfl rfl rfl rfl

/-- C7: `validateEmail` returns a valid result exactly when the input
passes the syntactic checks (`emailSyntaxValid`), and a valid result
carries the lowercased, trimmed input as normalized output; every failure
carries no normalized output, and each enumerated invalid category —
empty, longer than 320 characters, consecutive dots, leading or trailing
dot, more than one at sign — produces such a failure. The multiple-at
category relies on the documented behaviour of `validator.isEmail`
(rejecting strings with more than one at sign), stated as `hMulti`. -/
theorem validateEmail_correct (isEmail : String → Bool) (email : String)
    (hMulti : ∀ s : String, 2 ≤ atCount s → isEmail s = false) :
    ((validateEmail isEmail email).isValid = true ↔ emailSyntaxValid isEmail email)
    ∧ ((validateEmail isEmail email).isValid = true →
        (validateEmail isEmail email).normalizedEmail = some (normalizeEmail email))
    ∧ ((validateEmail isEmail email).isValid = false →
        (validateEmail isEmail email).normalizedEmail = none)
    ∧ ((normalizeEmail email).data = [] →
        (validateEmail isEmail email).isValid = false ∧
        (validateEmail isEmail email).normalizedEmail = none)
    ∧ (320 < (normalizeEmail email).length →
        (validateEmail isEmail email).isValid = false ∧
        (validateEmail isEmail email).normalizedEmail = none)
    ∧ (hasAdjPair isDotChar isDotChar (normalizeEmail email).data = true →
        (validateEmail isEmail email).isValid = false ∧
        (validateEmail isEmail email).normalizedEmail = none)
    ∧ ((normalizeEmail email).data.head? = some '.' →
        (validateEmail isEmail email).isValid = false ∧
        (validateEmail isEmail email).normalizedEmail = none)
    ∧ ((normalizeEmail email).data.getLast? = some '.' →
        (validateEmail isEmail email).isValid = false ∧
        (validateEmail isEmail email).normalizedEmail = none)
    ∧ (2 ≤ atCount (normalizeEmail email) →
        (validateEmail isEmail email).isValid = false ∧
        (validateEmail isEmail email).normalizedEmail = none) := by
  by_cases hv : emailSyntaxValid isEmail email
  · have heq := validateEmail_of_valid isEmail email hv
    obtain ⟨h1, h2, h3, h4, h5, h6, h7, h8⟩ := hv
    refine ⟨?_, ?_, ?_, ?_, ?_, ?_, ?_, ?_, ?_⟩
    · rw [heq]
      exact ⟨fun _ => ⟨h1, h2, h3, h4, h5, h6, h7, h8⟩, fun _ => rfl⟩
    · rw [heq]
      intro _
      rfl
    · rw [heq]
      intro hfalse
      exact absurd hfalse (by simp)
    · intro hempty
      exact absurd hempty h1
    · intro hlong
      omega
    · intro hdots
      rw [h4] at hdots
      exact absurd hdots (by simp)
    · intro hhead
      exact absurd hhead h5
    · intro hlast
      exact absurd hlast h6
    · intro hat
      have hrej := hMulti (normalizeEmail email) hat
      rw [h3] at hrej
      exact absurd hrej (by simp)
  · obtain ⟨hiv, hnone⟩ := validateEmail_of_not_valid isEmail email hv
    refine ⟨?_, ?_, ?_, ?_, ?_, ?_, ?_, ?_, ?_⟩
    · rw [hiv]
      exact ⟨fun hfalse => absurd hfalse (by simp), fun hx => absurd hx hv⟩
    · intro hvalid
      rw [hiv] at hvalid
      exact absurd hvalid (by simp)
    · intro _
      exact hnone
    · intro _
      exact ⟨hiv, hnone⟩
    · intro _
      exact ⟨hiv, hnone⟩
    · intro _
      exact ⟨hiv, hnone⟩
    · intro _
      exact ⟨hiv, hnone⟩
    · intro _
      exact ⟨hiv, hnone⟩
    · intro _
      exact ⟨hiv, hnone⟩

/-- C7 witness: the statement applied at the single-at oracle and a
concrete valid input with surrounding whitespace and mixed case. -/
theorem validateEmail_correct_witness :
    ((validateEmail oracleOneAt " John.Doe@Example.COM ").isValid = true
      ↔ emailSyntaxValid oracleOneAt " John.Doe@Example.COM ")
    ∧ ((validateEmail oracleOneAt " John.Doe@Example.COM ").isValid = true →
        (validateEmail oracleOneAt " John.Doe@Example.COM ").normalizedEmail
          = some (normalizeEmail " John.Doe@Example.COM "))
    ∧ ((validateEmail oracleOneAt " John.Doe@Example.COM ").isValid = false →
        (validateEmail oracleOneAt " John.Doe@Example.COM ").normalizedEmail = none)
    ∧ ((normalizeEmail " John.Doe@Example.COM ").data = [] →
        (validateEmail oracleOneAt " John.Doe@Example.COM ").isValid = false ∧
        (validateEmail oracleOneAt " John.Doe@Example.COM ").normalizedEmail = none)
    ∧ (320 < (normalizeEmail " John.Doe@Example.COM ").length →
        (validateEmail oracleOneAt " John.Doe@Example.COM ").isValid = false ∧
        (validateEmail oracleOneAt " John.Doe@Example.COM ").normalizedEmail = none)
    ∧ (hasAdjPair isDotChar isDotChar (normalizeEmail " John.Doe@Example.COM ").data = true →
        (validateEmail oracleOneAt " John.Doe@Example.COM ").isValid = false ∧
        (validateEmail oracleOneAt " John.Doe@Example.COM ").normalizedEmail = none)
    ∧ ((normalizeEmail " John.Doe@Example.COM ").data.head? = some '.' →
        (validateEmail oracleOneAt " John.Doe@Example.COM ").isValid = false ∧
        (validateEmail oracleOneAt " John.Doe@Example.COM ").normalizedEmail = none)
    ∧ ((normalizeEmail " John.Doe@Example.COM ").data.getLast? = some '.' →
        (validateEmail oracleOneAt " John.Doe@Example.COM ").isValid = false ∧
        (validateEmail oracleOneAt " John.Doe@Example.COM ").normalizedEmail = none)
    ∧ (2 ≤ atCount (normalizeEmail " John.Doe@Example.COM ") →
        (validateEmail oracleOneAt " John.Doe@Example.COM ").isValid = false ∧
        (validateEmail oracleOneAt " John.Doe@Example.COM ").normalizedEmail = none) :=
  validateEmail_correct oracleOneAt " John.Doe@Example.COM "
    (by
      intro s h
      simp only [oracleOneAt, beq_eq_false_iff_ne]
      omega)

/-- C8: when the counter read against the backend throws, `canSendMagicLink`
returns a denial (`allowed = false`) carrying the generic try-later
message — the magic-link limiter fails closed. -/
theorem canSendMagicLink_fails_closed (userId : Nat) (email : String) :
    canSendMagicLink userId email (Except.error ()) =
      { allowed := false, remainingPoints := 0, msBeforeNext := 0,
        message := some "Unable to check request limits. Please try again later." } :=
  rfl

/-- C9: after a step-5 `create` confirmation (any letter case), the wizard
session state is cleared whether `CommunityService.create` succeeds or
fails: the resulting session carries no `communityCreation`. -/
theorem step5_create_clears_wizard_state
    (env : DbEnv) (store : Store) (newId : String) (sess : Session)
    (flow : CommunityCreationFlow) (text : String)
    (hcreate : jsToLower text = "create") :
    ((handleStep5 env store newId sess flow text).1).communityCreation = none := by
  rcases hres : CommunityService.create env store newId (sess.user.getD "")
      ⟨flow.data.slug.getD "", flow.data.name.getD "",
       flow.data.description, flow.data.is_private⟩ with ⟨r, store1⟩
  cases r <;> simp [handleStep5, hcreate, hres]

/-- A completed wizard flow ready for the step-5 confirmation. -/
def flowFilled : CommunityCreationFlow :=
  ⟨5, ⟨some "crypto-trading", some "Crypto Trading Hub", none, some false⟩⟩

/-- C9 witness: a concrete `CREATE` confirmation clears the wizard state. -/
theorem step5_create_clears_wizard_state_witness :
    ((handleStep5 envAllOk storeEmpty "c-9" sessionBase flowFilled "CREATE").1).communityCreation
      = none :=
  step5_create_clears_wizard_state envAllOk storeEmpty "c-9" sessionBase flowFilled
    "CREATE" (by decide)

/-- C10: `validateEmail` is idempotent on accepted outputs — when it
accepts `email` with normalized result `N`, it also accepts `N` and
returns `N` as the normalized result. -/
theorem validateEmail_idempotent (isEmail : String → Bool) (email N : String)
    (h : (validateEmail isEmail email).normalizedEmail = some N) :
    validateEmail isEmail N =
      { isValid := true, normalizedEmail := some N, error := none } := by
  by_cases hv : emailSyntaxValid isEmail email
  · have heq := validateEmail_of_valid isEmail email hv
    have h2 : (validateEmail isEmail email).normalizedEmail
        = some (normalizeEmail email) := by rw [heq]
    rw [h2] at h
    have hN : N = normalizeEmail email := (Option.some.inj h).symm
    subst hN
    have hnn := normalizeEmail_idem email
    have hv' : emailSyntaxValid isEmail (normalizeEmail email) := by
      unfold emailSyntaxValid
      rw [hnn]
      exact hv
    have hfin := validateEmail_of_valid isEmail (normalizeEmail email) hv'
    rw [hfin, hnn]
  · obtain ⟨_, hnone⟩ := validateEmail_of_not_valid isEmail email hv
    rw [hnone] at h
    exact absurd h (by simp)

/-- C10 witness: re-validating the accepted normalization of a concrete
input returns the same normalization. -/
theorem validateEmail_idempotent_witness :
    validateEmail oracleOneAt "john.doe@example.com" =
      { isValid := true, normalizedEmail := some "john.doe@example.com",
        error := none } :=
  validateEmail_idempotent oracleOneAt " John.Doe@Example.COM "
    "john.doe@example.com" (by decide)
